import Mathlib

/-!
Verification of the cassandra_test data generators against their
natural-language specification.

Shallow embedding conventions, used throughout the file:

* Python's `random` module is modelled as an oracle: a `Rng` carries an
  arbitrary infinite stream of naturals and a cursor.  Every call of the
  Python code into the `random` module consumes one stream element.
  - `random.random() < p` is a Boolean outcome chosen by the oracle
    (`Rng.flip`); no claim depends on the numeric probability, only on
    which branch is taken, and every outcome pattern is realised by some
    stream.
  - `random.randint(a, b)` is `a + n % (b + 1 - a)` for the oracle value
    `n`, which realises exactly the values of the interval `[a, b]`.
  - `random.choice(range(lo, hi))` is `lo + n % (hi - lo)`.
  - `random.choice(lst)` / weighted `random.choices(lst, k=1)[0]` is an
    oracle-chosen element of `lst` (the weights only bias the
    distribution, they do not change which values are possible).
  - `random.sample(pop, k)` is modelled as `k` oracle-chosen elements of
    `pop`; no claim below depends on their pairwise distinctness.
* Timestamps are integers in seconds.  `datetime.now()` is an explicit
  `now : Int` parameter; `datetime(2020, 1, 1).timestamp()` is the fixed
  constant `1577836800`; `timedelta` arithmetic is carried out in
  seconds.
* CSV rows are Lean structures; writing a `csv.DictWriter` row is
  modelled as emitting the structure, and flushing `writer.writerows`
  buffers as emitting a block of structures.
-/

/-- Oracle model of Python's `random` module state: an arbitrary stream of
naturals together with a cursor. -/
structure Rng where
  stream : Nat → Nat
  pos : Nat

/-- Consume one oracle value. -/
def Rng.next (r : Rng) : Nat × Rng :=
  (r.stream r.pos, { r with pos := r.pos + 1 })

/-- Outcome of a Python `random.random() < p` test, chosen by the oracle. -/
def Rng.flip (r : Rng) : Bool × Rng :=
  let n := r.next
  (n.1 == 0, n.2)

/-- Python `random.randint(a, b)`: an oracle-chosen integer of `[a, b]`. -/
def randint (a b : Nat) (r : Rng) : Nat × Rng :=
  let n := r.next
  (a + n.1 % (b + 1 - a), n.2)

/-- Python `random.choice(list(range(lo, hi)))`. -/
def choiceRange (lo hi : Nat) (r : Rng) : Nat × Rng :=
  let n := r.next
  (lo + n.1 % (hi - lo), n.2)

/-- Python `random.choice(lst)` (also used for weighted
`random.choices(lst, ..., k=1)[0]`). -/
def choiceList {α : Type} [Inhabited α] (l : List α) (r : Rng) : α × Rng :=
  let n := r.next
  (l.getD (n.1 % l.length) default, n.2)

/-- The all-zero oracle stream (every `flip` is `true`, every `randint a b`
is `a`), used to build concrete runs. -/
def zeroRng : Rng := ⟨fun _ => 0, 0⟩

namespace DsbulkGenerate

/-! Embedding of `src/dsbulk_generate.py`, class `CSVDsbulkGenerator`.
`self.users = range(1000, 1000000)`, `self.chats = range(1000, 500000)`. -/

/-- Python `generate_message_id(chat_id, local_id)` returns `local_id`. -/
def generate_message_id (chat_id local_id : Nat) : Nat := local_id

/-- Python `generate_bucket(message_id)` returns `message_id // 1000`. -/
def generate_bucket (message_id : Nat) : Nat := message_id / 1000

/-- Python `generate_flags`: five independent probability tests or-ing in
1, 2, 4, 8, 16. -/
def generate_flags (r0 : Rng) : Nat × Rng :=
  let b1 := r0.flip
  let f1 := if b1.1 then 0 ||| 1 else 0
  let b2 := b1.2.flip
  let f2 := if b2.1 then f1 ||| 2 else f1
  let b3 := b2.2.flip
  let f3 := if b3.1 then f2 ||| 4 else f2
  let b4 := b3.2.flip
  let f4 := if b4.1 then f3 ||| 8 else f3
  let b5 := b4.2.flip
  let f5 := if b5.1 then f4 ||| 16 else f4
  (f5, b5.2)

/-- Epoch seconds of `datetime(2020, 1, 1)`. -/
def epoch2020 : Int := 1577836800

/-- Python `generate_timestamp(base_date=None)`: fixed base `datetime(2020, 1, 1)`
when no base is given, minus an oracle-chosen number of days, plus an
oracle-chosen time of day. -/
def generate_timestamp (base : Option Int) (r0 : Rng) : Int × Rng :=
  let b := base.getD epoch2020
  let days := randint 0 (3 * 365) r0
  let h := randint 0 23 days.2
  let m := randint 0 59 h.2
  let s := randint 0 59 m.2
  (b - (days.1 : Int) * 86400 + ((h.1 : Int) * 3600 + (m.1 : Int) * 60 + (s.1 : Int)), s.2)

def common_words : List String :=
  ["привет", "как", "дела", "нормально", "спасибо", "пока", "что", "где",
   "когда", "почему", "сегодня", "завтра", "вчера", "работа", "дом", "друзья",
   "встреча", "совещание", "проект", "задача", "срочно", "важно", "файл", "ссылка"]

/-- The word loop of `generate_text`: one oracle word choice and one
capitalisation test per word. -/
def text_words : Nat → Rng → List String × Rng
  | 0, r0 => ([], r0)
  | k + 1, r0 =>
    let w := choiceList common_words r0
    let cap := w.2.flip
    let word := if cap.1 then w.1.capitalize else w.1
    let rest := text_words k cap.2
    (word :: rest.1, rest.2)

/-- Python `generate_text`: `words_count` is hard-coded to 1 (line 84 of the
source), then an optional punctuation mark is appended. -/
def generate_text (r0 : Rng) : String × Rng :=
  let words_count := 1
  let ws := text_words words_count r0
  let text := String.intercalate " " ws.1
  let punct := ws.2.flip
  if punct.1 then
    let p := choiceList [".", "!", "?"] punct.2
    (text ++ p.1, p.2)
  else (text, punct.2)

/-- Python `generate_kludges` returns `""` on its first line; everything below
that `return` in the source is dead code and consumes no randomness. -/
def generate_kludges (r0 : Rng) : String × Rng := ("", r0)

/-- The id loop of `generate_forwarded_message_ids`: `count` oracle-chosen
integers of `[1000000, 9999999]`. -/
def forwarded_ids : Nat → Rng → List Nat × Rng
  | 0, r0 => ([], r0)
  | k + 1, r0 =>
    let x := randint 1000000 9999999 r0
    let rest := forwarded_ids k x.2
    (x.1 :: rest.1, rest.2)

/-- Python `generate_forwarded_message_ids` (dsbulk version, returns the CSV list
text): on a successful probability test, 1 to 3 ids joined in brackets,
otherwise the literal `[]`. -/
def generate_forwarded_message_ids (r0 : Rng) : String × Rng :=
  let fire := r0.flip
  if fire.1 then
    let count := randint 1 3 fire.2
    let ids := forwarded_ids count.1 count.2
    ("[" ++ String.intercalate "," (ids.1.map toString) ++ "]", ids.2)
  else ("[]", fire.2)

/-- Python `generate_mentions`: a weighted choice of four type strings. -/
def generate_mentions (r0 : Rng) : String × Rng :=
  choiceList ["none", "all", "online", "user"] r0

/-- Model of `random.sample(self.users, k)`: `k` oracle-chosen users of
`range(1000, 1000000)`. -/
def sample_users : Nat → Rng → List Nat × Rng
  | 0, r0 => ([], r0)
  | k + 1, r0 =>
    let u := choiceRange 1000 1000000 r0
    let rest := sample_users k u.2
    (u.1 :: rest.1, rest.2)

/-- Model of `random.sample(available_users, count)`: `k` oracle-chosen
elements of a list. -/
def sample_from (l : List Nat) : Nat → Rng → List Nat × Rng
  | 0, r0 => ([], r0)
  | k + 1, r0 =>
    let u := choiceList l r0
    let rest := sample_from l k u.2
    (u.1 :: rest.1, rest.2)

/-- Python `generate_marked_users` (dsbulk version, returns the CSV list text). -/
def generate_marked_users (author_id : Nat) (r0 : Rng) : String × Rng :=
  let fire := r0.flip
  if fire.1 then
    let pool := sample_users 10 fire.2
    let available := pool.1.filter (fun u => u ≠ author_id)
    let count := randint 1 (min 5 available.length) pool.2
    let users := sample_from available count.1 count.2
    ("[" ++ String.intercalate "," (users.1.map toString) ++ "]", users.2)
  else ("[]", fire.2)

/-- Python `generate_ttl`: 0, or an oracle choice of the four TTL constants. -/
def generate_ttl (r0 : Rng) : Nat × Rng :=
  let fire := r0.flip
  if fire.1 then choiceList [3600, 86400, 604800, 2592000] fire.2
  else (0, fire.2)

/-- Python `value.replace('"', '""')` at character level. -/
def doubleQuotes : List Char → List Char
  | [] => []
  | c :: cs => if c = '\x22' then '\x22' :: '\x22' :: doubleQuotes cs else c :: doubleQuotes cs

/-- Python `str.strip()`: drop leading and trailing whitespace. -/
def pyStrip (s : List Char) : List Char :=
  ((s.dropWhile Char.isWhitespace).reverse.dropWhile Char.isWhitespace).reverse

/-- Python `escape_csv_value` (dsbulk version) on its string branch: a value whose
stripped form begins with `{` and ends with `}` is always quoted with
internal quotes doubled; otherwise quoting happens exactly when the value
contains a comma, a newline or a double quote. -/
def escape_chars (s : List Char) : List Char :=
  let t := pyStrip s
  if (t.head? == some '{') && (t.getLast? == some '}') then
    '\x22' :: (doubleQuotes s ++ ['\x22'])
  else if s.contains ',' || s.contains '\n' || s.contains '\x22' then
    '\x22' :: (doubleQuotes s ++ ['\x22'])
  else s

/-- Python `escape_csv_value` (dsbulk version) for string values. -/
def escape_csv_value (s : String) : String := ⟨escape_chars s.data⟩

/-- One generated Messages CSV row (the dictionary built by
`generate_message_row`; booleans are rendered lowercase by the writer). -/
structure MessageRow where
  chat_id : Nat
  bucket : Nat
  chat_msg_local_id : Nat
  flags : Nat
  date : Int
  update_time : Int
  author_id : Nat
  text : String
  kludges : String
  forwarded : Bool
  forwarded_message_ids : String
  mentions : String
  marked_users : String
  ttl : Nat
  deleted_for_all : Bool
deriving DecidableEq, Repr

/-- Python `generate_message_row(message_idx, chat_id)`: the row dictionary, with
`bucket` computed from the message id and every other field drawn in source
order.  `chat_id=None` triggers a `random.choice(self.chats)`. -/
def generate_message_row (message_idx : Nat) (chat0 : Option Nat) (r0 : Rng) :
    MessageRow × Rng :=
  let c := match chat0 with
    | some cid => (cid, r0)
    | none => choiceRange 1000 500000 r0
  let message_id := generate_message_id c.1 message_idx
  let a := choiceRange 1000 1000000 c.2
  let d := generate_timestamp none a.2
  let upd := d.2.flip
  let u := if upd.1 then
      let x := randint 60 3600 upd.2
      (d.1 + (x.1 : Int), x.2)
    else (d.1, upd.2)
  let t := generate_text u.2
  let k := generate_kludges t.2
  let f := k.2.flip
  let ids := generate_forwarded_message_ids f.2
  let m := generate_mentions ids.2
  let mu := generate_marked_users a.1 m.2
  let tt := generate_ttl mu.2
  let dfa := tt.2.flip
  let fl := generate_flags dfa.2
  ({ chat_id := c.1,
     bucket := generate_bucket message_id,
     chat_msg_local_id := message_id,
     flags := fl.1,
     date := d.1,
     update_time := u.1,
     author_id := a.1,
     text := escape_csv_value t.1,
     kludges := escape_csv_value k.1,
     forwarded := f.1,
     forwarded_message_ids := ids.1,
     mentions := m.1,
     marked_users := mu.1,
     ttl := tt.1,
     deleted_for_all := dfa.1 }, fl.2)

/-- The loop body of `generate_optimized_csv`: generate `n` more rows
(current index `i`), appending each to `buffer` and emitting the buffer as
a flushed block once it holds `bufferSize` rows; a final partial buffer is
flushed at the end.  The result is the list of flushed blocks in order. -/
def optimized_loop (bufferSize : Nat) (chat0 : Option Nat) : Nat → Nat → Rng →
    List MessageRow → List (List MessageRow)
  | 0, _, _, buffer => if buffer.isEmpty then [] else [buffer]
  | n + 1, i, r0, buffer =>
    let row := generate_message_row i chat0 r0
    let buffer1 := buffer ++ [row.1]
    if bufferSize ≤ buffer1.length then
      buffer1 :: optimized_loop bufferSize chat0 n (i + 1) row.2 []
    else
      optimized_loop bufferSize chat0 n (i + 1) row.2 buffer1

/-- Python `generate_optimized_csv(count, chat_id)`: `BUFFER_SIZE = 1000`, starting
from an empty buffer and message index 0.  Returns the flushed blocks in
order. -/
def generate_optimized_csv (count : Nat) (chat0 : Option Nat) (r0 : Rng) :
    List (List MessageRow) :=
  optimized_loop 1000 chat0 count 0 r0 []

/-- The rows the generator produces one by one, in generation order (the
unbuffered reference sequence of `generate_csv_file`). -/
def sequential_rows (chat0 : Option Nat) : Nat → Nat → Rng → List MessageRow
  | 0, _, _ => []
  | n + 1, i, r0 =>
    let row := generate_message_row i chat0 r0
    row.1 :: sequential_rows chat0 n (i + 1) row.2

end DsbulkGenerate

namespace GeneratePy

/-! Embedding of `src/generate.py`, class `MessageGenerator`.  The helper
functions shared verbatim with `dsbulk_generate.py` (`generate_message_id`,
`generate_bucket`, `generate_flags`, `generate_timestamp`, word lists and
sampling helpers) are reused from `DsbulkGenerate`; the functions below are
the ones whose bodies differ. -/

open DsbulkGenerate (generate_message_id generate_bucket generate_flags
  generate_timestamp common_words text_words sample_users sample_from)

/-- Python `generate_text(min_words=3, max_words=50)`: an oracle-chosen word count
of `[3, 50]`, then the word loop and an optional punctuation mark. -/
def generate_text (r0 : Rng) : String × Rng :=
  let wc := randint 3 50 r0
  let ws := text_words wc.1 wc.2
  let text := String.intercalate " " ws.1
  let punct := ws.2.flip
  if punct.1 then
    let p := choiceList [".", "!", "?"] punct.2
    (text ++ p.1, p.2)
  else (text, punct.2)

/-- Python `generate_kludges` (generate.py version): with 30% probability a JSON
blob describing a media attachment, else `"{}"`.  The `uuid.uuid4()` value
and the `hashlib.md5(str(random.random()))` digest are external entropy /
opaque hashing, modelled as oracle-determined strings; no claim inspects
this field's contents. -/
def generate_kludges (r0 : Rng) : String × Rng :=
  let fire := r0.flip
  if fire.1 then
    let mt := choiceList ["photo", "video", "document", "audio", "voice", "sticker"] fire.2
    let uuidv := mt.2.next
    let size := randint 1024 (50 * 1024 * 1024) uuidv.2
    let urlv := size.2.next
    let isPicture := mt.1 = "photo" ∨ mt.1 = "video"
    let width := if isPicture then
        let w := choiceList [1280, 1920, 2560] urlv.2
        (toString w.1, w.2)
      else ("null", urlv.2)
    let height := if isPicture then
        let h := choiceList [720, 1080, 1440] width.2
        (toString h.1, h.2)
      else ("null", width.2)
    let hasDuration := mt.1 = "video" ∨ mt.1 = "audio" ∨ mt.1 = "voice"
    let duration := if hasDuration then
        let d := randint 1 300 height.2
        (toString d.1, d.2)
      else ("null", height.2)
    ("\x7b\x22type\x22: \x22" ++ mt.1 ++ "\x22, \x22id\x22: \x22" ++ toString uuidv.1 ++
      "\x22, \x22size\x22: " ++ toString size.1 ++
      ", \x22url\x22: \x22https://cdn.example.com/" ++ mt.1 ++ "/" ++
      toString (urlv.1 % 100000000) ++ "\x22, \x22width\x22: " ++ width.1 ++
      ", \x22height\x22: " ++ height.1 ++ ", \x22duration\x22: " ++ duration.1 ++ "\x7d",
     duration.2)
  else ("\x7b\x7d", fire.2)

/-- Python `generate_forwarded_message_ids` (generate.py version, returns a list):
on a successful probability test, 1 to 3 oracle-chosen ids, else `[]`. -/
def generate_forwarded_message_ids (r0 : Rng) : List Nat × Rng :=
  let fire := r0.flip
  if fire.1 then
    let count := randint 1 3 fire.2
    DsbulkGenerate.forwarded_ids count.1 count.2
  else ([], fire.2)

/-- Python `generate_marked_users` (generate.py version, returns a list). -/
def generate_marked_users (author_id : Nat) (r0 : Rng) : List Nat × Rng :=
  let fire := r0.flip
  if fire.1 then
    let pool := sample_users 10 fire.2
    let available := pool.1.filter (fun u => u ≠ author_id)
    let count := randint 1 (min 5 available.length) pool.2
    sample_from available count.1 count.2
  else ([], fire.2)

/-- Python `generate_mentions` (generate.py version). -/
def generate_mentions (r0 : Rng) : String × Rng :=
  choiceList ["none", "all", "online", "user"] r0

/-- Python `generate_ttl` (generate.py version). -/
def generate_ttl (r0 : Rng) : Nat × Rng :=
  let fire := r0.flip
  if fire.1 then choiceList [3600, 86400, 604800, 2592000] fire.2
  else (0, fire.2)

/-- One generated Messages dictionary (`generate_message`). -/
structure Message where
  chat_id : Nat
  bucket : Nat
  chat_msg_local_id : Nat
  flags : Nat
  date : Int
  update_time : Int
  author_id : Nat
  text : String
  kludges : String
  forwarded : Bool
  forwarded_message_ids : List Nat
  mentions : String
  marked_users : List Nat
  ttl : Nat
  deleted_for_all : Bool
deriving DecidableEq, Repr

/-- Python `generate_message(message_idx, chat_id)`.  Note the source computes
`forwarded` from a first call of `generate_forwarded_message_ids` (line
170) and then discards that list, drawing `forwarded_message_ids` from a
second, independent call (line 171). -/
def generate_message (message_idx : Nat) (chat0 : Option Nat) (r0 : Rng) :
    Message × Rng :=
  let c := match chat0 with
    | some cid => (cid, r0)
    | none => choiceRange 1000 500000 r0
  let message_id := generate_message_id c.1 message_idx
  let a := choiceRange 1000 1000000 c.2
  let d := generate_timestamp none a.2
  let upd := d.2.flip
  let u := if upd.1 then
      let x := randint 60 3600 upd.2
      (d.1 + (x.1 : Int), x.2)
    else (d.1, upd.2)
  let t := generate_text u.2
  let k := generate_kludges t.2
  let fwd1 := generate_forwarded_message_ids k.2
  let forwarded := decide (0 < fwd1.1.length)
  let fwd2 := generate_forwarded_message_ids fwd1.2
  let m := generate_mentions fwd2.2
  let mu := generate_marked_users a.1 m.2
  let tt := generate_ttl mu.2
  let dfa := tt.2.flip
  let fl := generate_flags dfa.2
  ({ chat_id := c.1,
     bucket := generate_bucket message_id,
     chat_msg_local_id := message_id,
     flags := fl.1,
     date := d.1,
     update_time := u.1,
     author_id := a.1,
     text := t.1,
     kludges := k.1,
     forwarded := forwarded,
     forwarded_message_ids := fwd2.1,
     mentions := m.1,
     marked_users := mu.1,
     ttl := tt.1,
     deleted_for_all := dfa.1 }, fl.2)

end GeneratePy

namespace UserToMessage

/-! Embedding of `src/generate_usertomessage.py`, class
`UserToMessageCSVGenerator`.  `self.users = range(1000, 1000000)`,
`self.peers = range(1000, 500000)`.  The dictionary
`self.chat_local_counter` is modelled as a total function on pairs with 0
meaning "key absent" (the code only ever stores values ≥ 1), and the set
`self.generated_messages` as the list of inserted triples. -/

structure UMRow where
  user_id : Nat
  peer_id : Nat
  chat_local_id : Nat
  flags : Nat
deriving DecidableEq, Repr

/-- Generator state outside the RNG: the per-pair counter dictionary and
the set of generated `(user_id, peer_id, chat_local_id)` keys. -/
structure GenState where
  counter : Nat × Nat → Nat
  generated : List (Nat × Nat × Nat)

def initState : GenState := { counter := fun _ => 0, generated := [] }

/-- Python `get_next_chat_local_id(user_id, peer_id)`: initialise the counter to 0
when absent, increment it, and return it. -/
def get_next_chat_local_id (counter : Nat × Nat → Nat) (user_id peer_id : Nat) :
    Nat × (Nat × Nat → Nat) :=
  let v := counter (user_id, peer_id) + 1
  (v, Function.update counter (user_id, peer_id) v)

/-- Python `generate_flags` (UserToMessage version): eight independent probability
tests or-ing in 1, 2, 4, 8, 16, 32, 64, 128. -/
def generate_flags (r0 : Rng) : Nat × Rng :=
  let b1 := r0.flip
  let f1 := if b1.1 then 0 ||| 1 else 0
  let b2 := b1.2.flip
  let f2 := if b2.1 then f1 ||| 2 else f1
  let b3 := b2.2.flip
  let f3 := if b3.1 then f2 ||| 4 else f2
  let b4 := b3.2.flip
  let f4 := if b4.1 then f3 ||| 8 else f3
  let b5 := b4.2.flip
  let f5 := if b5.1 then f4 ||| 16 else f4
  let b6 := b5.2.flip
  let f6 := if b6.1 then f5 ||| 32 else f5
  let b7 := b6.2.flip
  let f7 := if b7.1 then f6 ||| 64 else f6
  let b8 := b7.2.flip
  let f8 := if b8.1 then f7 ||| 128 else f7
  (f8, b8.2)

/-- Python `generate_unique_message_key`: the source is an unbounded `while True`
loop that redraws a `(user_id, peer_id)` pair until one is found that is
absent from the counter (result local id 1) or strictly below the
1000-per-pair cap (result local id counter + 1); a pair at the cap only
makes the loop retry.  The loop is embedded with explicit fuel: `none`
means the source loop has not returned within `fuel` iterations. -/
def generate_unique_message_key (counter : Nat × Nat → Nat) :
    Nat → Rng → Option ((Nat × Nat × Nat) × Rng)
  | 0, _ => none
  | fuel + 1, r0 =>
    let u := choiceRange 1000 1000000 r0
    let p := choiceRange 1000 500000 u.2
    if counter (u.1, p.1) = 0 then some ((u.1, p.1, 1), p.2)
    else if counter (u.1, p.1) < 1000 then
      some ((u.1, p.1, counter (u.1, p.1) + 1), p.2)
    else generate_unique_message_key counter fuel p.2

/-- The common tail of `generate_record_row` after the key `(user_id,
peer_id, chat_local_id)` has been chosen (`counter0` is the counter
dictionary as the chosen path left it): the counter is stored (lines
121-125), flags are drawn, the duplicate check against
`generated_messages` bumps the local id by one on a hit (lines 129-135),
and the key is inserted. -/
def record_tail (st : GenState) (user_id peer_id cl0 : Nat)
    (counter0 : Nat × Nat → Nat) (r1 : Rng) : UMRow × GenState × Rng :=
  let counter1 := Function.update counter0 (user_id, peer_id) cl0
  let fl := generate_flags r1
  let dup := st.generated.contains (user_id, peer_id, cl0)
  let cl1 := if dup then cl0 + 1 else cl0
  let counter2 :=
    if dup then Function.update counter1 (user_id, peer_id) cl1 else counter1
  ({ user_id := user_id, peer_id := peer_id, chat_local_id := cl1,
     flags := fl.1 },
   { counter := counter2, generated := (user_id, peer_id, cl1) :: st.generated },
   fl.2)

/-- Python `generate_record_row(record_idx, user_id, peer_id)`: with both ids
fixed, the sequential `get_next_chat_local_id` path; otherwise the random
`generate_unique_message_key` path; then the common tail. -/
def generate_record_row (record_idx : Nat) (uid0 pid0 : Option Nat)
    (st : GenState) (fuel : Nat) (r0 : Rng) : Option (UMRow × GenState × Rng) :=
  match uid0, pid0 with
  | some u, some p =>
    let g := get_next_chat_local_id st.counter u p
    some (record_tail st u p g.1 g.2 r0)
  | _, _ =>
    match generate_unique_message_key st.counter fuel r0 with
    | none => none
    | some kr => some (record_tail st kr.1.1 kr.1.2.1 kr.1.2.2 st.counter kr.2)

/-- A generation run of `count` rows (the row loop shared by
`generate_csv_file`, `generate_multiple_csv_files` and
`generate_optimized_csv`): `none` as soon as one allocation exhausts its
fuel. -/
def run (uid0 pid0 : Option Nat) (fuel : Nat) :
    Nat → Nat → GenState → Rng → Option (List UMRow × GenState × Rng)
  | 0, _, st, r0 => some ([], st, r0)
  | n + 1, i, st, r0 =>
    match generate_record_row i uid0 pid0 st fuel r0 with
    | none => none
    | some (row, st1, r1) =>
      match run uid0 pid0 fuel n (i + 1) st1 r1 with
      | none => none
      | some (rows, st2, r2) => some (row :: rows, st2, r2)

end UserToMessage

namespace ChatsPeerids

/-! Embedding of `src/generator_chats_peerids.py`, class
`CassandraDataGenerator`.  `self.user_ids = range(1000, 1000000)`.
`generate_timestamp` starts from `datetime.now()`, made explicit as a
`now : Int` parameter (seconds). -/

/-- Python `generate_timestamp(years_back)`: `datetime.now()` minus an oracle
number of days minus an oracle time of day (the source subtracts
`random_time`). -/
def generate_timestamp (years_back : Nat) (now : Int) (r0 : Rng) : Int × Rng :=
  let days := randint 0 (years_back * 365) r0
  let h := randint 0 23 days.2
  let m := randint 0 59 h.2
  let s := randint 0 59 m.2
  (now - (days.1 : Int) * 86400 - ((h.1 : Int) * 3600 + (m.1 : Int) * 60 + (s.1 : Int)),
   s.2)

/-- Python `generate_peer_flags`: five independent probability tests or-ing in
1, 2, 4, 8, 16. -/
def generate_peer_flags (r0 : Rng) : Nat × Rng :=
  let b1 := r0.flip
  let f1 := if b1.1 then 0 ||| 1 else 0
  let b2 := b1.2.flip
  let f2 := if b2.1 then f1 ||| 2 else f1
  let b3 := b2.2.flip
  let f3 := if b3.1 then f2 ||| 4 else f2
  let b4 := b3.2.flip
  let f4 := if b4.1 then f3 ||| 8 else f3
  let b5 := b4.2.flip
  let f5 := if b5.1 then f4 ||| 16 else f4
  (f5, b5.2)

/-- One generated PeerIds CSV row. -/
structure PeerRow where
  user_id : Nat
  chat_id : Nat
  invite_timestamp : Int
  disable_for : Nat
  flags : Nat
  inviter_id : Nat
  last_read_message_id : Nat
  last_message_id : Nat
  last_message_ts : Int
deriving DecidableEq, Repr

/-- Python `generate_peerid_row(user_id, chat_id, base_timestamp)`:
`invite_timestamp` is the base, `last_message_ts` adds an oracle offset of
`[0, 30 * 24 * 3600]` (0 is allowed), and the remaining fields are drawn in
dictionary order. -/
def generate_peerid_row (user_id chat_id : Nat) (base_timestamp : Int) (r0 : Rng) :
    PeerRow × Rng :=
  let off := randint 0 (30 * 24 * 3600) r0
  let last := base_timestamp + (off.1 : Int)
  let dfire := off.2.flip
  let dfor := if dfire.1 then randint 0 100 dfire.2 else (0, dfire.2)
  let fl := generate_peer_flags dfor.2
  let inv := choiceRange 1000 1000000 fl.2
  let lrm := randint 0 10000 inv.2
  let lmi := randint 0 10000 lrm.2
  ({ user_id := user_id, chat_id := chat_id, invite_timestamp := base_timestamp,
     disable_for := dfor.1, flags := fl.1, inviter_id := inv.1,
     last_read_message_id := lrm.1, last_message_id := lmi.1,
     last_message_ts := last }, lmi.2)

/-- The collision loop of `generate_peerids_csv`: while the pair is in
`used_pairs` and fewer than 10 attempts were made, move
`last_message_ts` forward by an oracle increment of `[1, 10]`. -/
def resolve_pair (used : List (Nat × Int)) (user_id : Nat) :
    Nat → Int → Rng → Int × Rng
  | 0, ts, r0 => (ts, r0)
  | k + 1, ts, r0 =>
    if used.contains (user_id, ts) then
      let d := randint 1 10 r0
      resolve_pair used user_id k (ts + (d.1 : Int)) d.2
    else (ts, r0)

/-- The `(user_id, last_message_ts)` pair of a row (the key the
`used_pairs` set tracks). -/
def rowPair (row : PeerRow) : Nat × Int := (row.user_id, row.last_message_ts)

/-- One row of `generate_peerids_csv` (standard mode): a user and chat are
drawn, an invite timestamp and an offset of up to 180 days, the
`(user_id, last_message_ts)` pair is resolved against `used_pairs`, and
the row is emitted with its `last_message_ts` overridden by the resolved
value (so the pair added to `used_pairs` is exactly `rowPair` of the
emitted row). -/
def peerids_step (chat_ids : List Nat) (now : Int) (used : List (Nat × Int))
    (r0 : Rng) : PeerRow × Rng :=
  let u := choiceRange 1000 1000000 r0
  let c := choiceList chat_ids u.2
  let its := generate_timestamp 3 now c.2
  let off := randint 0 (180 * 24 * 3600) its.2
  let res := resolve_pair used u.1 10 (its.1 + (off.1 : Int)) off.2
  let rowr := generate_peerid_row u.1 c.1 its.1 res.2
  ({ rowr.1 with last_message_ts := res.1 }, rowr.2)

/-- The row loop of `generate_peerids_csv`: each row's pair is always
added to `used_pairs` after resolution.  The third component reports
whether any row accepted a pair that was still in `used_pairs` after 10
attempts (retry exhaustion). -/
def peerids_loop (chat_ids : List Nat) (now : Int) :
    Nat → List (Nat × Int) → Rng → List PeerRow × List (Nat × Int) × Bool × Rng
  | 0, used, r0 => ([], used, false, r0)
  | n + 1, used, r0 =>
    let s := peerids_step chat_ids now used r0
    let clash := used.contains (rowPair s.1)
    let used1 := rowPair s.1 :: used
    let rest := peerids_loop chat_ids now n used1 s.2
    (s.1 :: rest.1, rest.2.1, clash || rest.2.2.1, rest.2.2.2)

/-- Python `generate_peerids_csv(count, chat_ids)` from an empty `used_pairs`. -/
def generate_peerids_csv (count : Nat) (chat_ids : List Nat) (now : Int)
    (r0 : Rng) : List PeerRow × List (Nat × Int) × Bool × Rng :=
  peerids_loop chat_ids now count [] r0

/-- The inner user loop of `generate_optimized_peerids`: up to
`users_in_chat` rows for one chat, stopping early once `count` rows exist
in total.  No uniqueness bookkeeping of any kind is performed. -/
def optimized_users_loop (chat_id : Nat) (base_ts : Int) (count : Nat) :
    Nat → Nat → Rng → List PeerRow × Nat × Rng
  | 0, total, r0 => ([], total, r0)
  | k + 1, total, r0 =>
    if count ≤ total then ([], total, r0)
    else
      let u := choiceRange 1000 1000000 r0
      let ioff := randint 0 (7 * 24 * 3600) u.2
      let invite := base_ts + (ioff.1 : Int)
      let loff := randint 0 (180 * 24 * 3600) ioff.2
      let last := invite + (loff.1 : Int)
      let rowr := generate_peerid_row u.1 chat_id invite loff.2
      let row := { rowr.1 with last_message_ts := last }
      let rest := optimized_users_loop chat_id base_ts count k (total + 1) rowr.2
      (row :: rest.1, rest.2)

/-- The chat loop of `generate_optimized_peerids`: for every chat except
the last the user count is an oracle value of `[1, records_per_chat * 2]`,
for the last chat it is `min records_per_chat (count - total)`; each chat
draws one base timestamp.  (The source's in-memory buffering only groups
file writes and does not change the emitted row sequence; it is elided.) -/
def optimized_chats_loop (count records_per_chat : Nat) (now : Int) :
    List Nat → Nat → Rng → List PeerRow × Nat × Rng
  | [], total, r0 => ([], total, r0)
  | chat_id :: rest_chats, total, r0 =>
    if count ≤ total then ([], total, r0)
    else
      let uic := if rest_chats.isEmpty then (min records_per_chat (count - total), r0)
        else randint 1 (records_per_chat * 2) r0
      let base := generate_timestamp 3 now uic.2
      let inner := optimized_users_loop chat_id base.1 count uic.1 total base.2
      let rest := optimized_chats_loop count records_per_chat now rest_chats
        inner.2.1 inner.2.2
      (inner.1 ++ rest.1, rest.2)

/-- Python `generate_optimized_peerids(count, chat_ids)`:
`records_per_chat = max(1, count // len(chat_ids))`. -/
def generate_optimized_peerids (count : Nat) (chat_ids : List Nat) (now : Int)
    (r0 : Rng) : List PeerRow × Nat × Rng :=
  optimized_chats_loop count (max 1 (count / chat_ids.length)) now chat_ids 0 r0

end ChatsPeerids

namespace DockerLoader

/-! Embedding of `src/docker_dsbulk_loader.py`, class `DockerDSBulkLoader`:
the pure SQL value tokenizer `parse_sql_values` and the token normaliser
`clean_value`.  Characters with special lexical roles are written with
`\x..` escapes: `\x27` is the single quote, `\x5c` the backslash. -/

/-- Mutable scan state of `parse_sql_values`. -/
structure PState where
  values : List (List Char)
  current : List Char
  inQuotes : Bool
  inList : Bool
  escapeNext : Bool
deriving Repr

def toUpperChars (s : List Char) : List Char := s.map Char.toUpper

/-- Python `value.replace("''", "'")`: left-to-right, non-overlapping. -/
def collapse_doubled : List Char → List Char
  | '\x27' :: '\x27' :: rest => '\x27' :: collapse_doubled rest
  | c :: rest => c :: collapse_doubled rest
  | [] => []

/-- Python `clean_value`: normalise `TRUE` / `FALSE` / `NULL`, strip one layer of
single quotes (collapsing doubled quotes), and pass bracketed lists and
everything else through.  The source's final two branches both return the
processed value; the bracket test is kept for fidelity. -/
def clean_value (v : List Char) : List Char :=
  if v.isEmpty then []
  else if toUpperChars v = "TRUE".data then "true".data
  else if toUpperChars v = "FALSE".data then "false".data
  else if toUpperChars v = "NULL".data then []
  else
    let v1 := if v.head? = some '\x27' ∧ v.getLast? = some '\x27' then
        collapse_doubled ((v.drop 1).dropLast)
      else v
    if v1.head? = some '[' ∧ v1.getLast? = some ']' then v1 else v1

/-- Python `str.strip()` on a character list. -/
def pyStrip (s : List Char) : List Char :=
  ((s.dropWhile Char.isWhitespace).reverse.dropWhile Char.isWhitespace).reverse

/-- The character scan of `parse_sql_values`: backslash escapes, quoted
strings with `''` collapsing to one quote (the lookahead skipping the
second quote consumes the head of the remainder), opaque `[...]` capture,
and splitting on commas at top level.  The first argument is structural
fuel, always called with the input length; every step consumes at least
one character, so the fuel never runs out before the input does. -/
def parse_loop : Nat → List Char → PState → PState
  | 0, _, st => st
  | _ + 1, [], st => st
  | fuel + 1, c :: rest, st =>
    if st.escapeNext then
      parse_loop fuel rest { st with current := st.current ++ [c], escapeNext := false }
    else if c = '\x5c' then
      parse_loop fuel rest { st with escapeNext := true }
    else if c = '\x27' ∧ ¬st.inQuotes then
      parse_loop fuel rest { st with inQuotes := true }
    else if c = '\x27' ∧ st.inQuotes then
      if rest.head? = some '\x27' then
        parse_loop fuel rest.tail { st with current := st.current ++ ['\x27'] }
      else parse_loop fuel rest { st with inQuotes := false }
    else if c = '[' ∧ ¬st.inQuotes then
      parse_loop fuel rest { st with inList := true, current := st.current ++ [c] }
    else if c = ']' ∧ st.inList then
      parse_loop fuel rest { st with inList := false, current := st.current ++ [c] }
    else if c = ',' ∧ ¬st.inQuotes ∧ ¬st.inList then
      parse_loop fuel rest
        { st with values := st.values ++ [clean_value (pyStrip st.current)],
                  current := [] }
    else
      parse_loop fuel rest { st with current := st.current ++ [c] }

/-- Python `parse_sql_values`: newlines become spaces, the text is stripped, the
scan runs from the empty state, and a non-empty trailing token is cleaned
and appended. -/
def parse_sql_values (values_str : List Char) : List (List Char) :=
  let cleaned := pyStrip (values_str.map (fun c => if c = '\n' then ' ' else c))
  let st := parse_loop cleaned.length cleaned ⟨[], [], false, false, false⟩
  if st.current.isEmpty then st.values
  else st.values ++ [clean_value (pyStrip st.current)]

/-- The raw value-tuple text
`1, 'O''Brien said ''hi''', [10,20,30], TRUE, NULL` of the tokenizer
scenario, as a character list. -/
def scenario_input : List Char :=
  ['1', ',', ' ',
   '\x27', 'O', '\x27', '\x27', 'B', 'r', 'i', 'e', 'n', ' ',
   's', 'a', 'i', 'd', ' ', '\x27', '\x27', 'h', 'i', '\x27', '\x27', '\x27', ',', ' ',
   '[', '1', '0', ',', '2', '0', ',', '3', '0', ']', ',', ' ',
   'T', 'R', 'U', 'E', ',', ' ',
   'N', 'U', 'L', 'L']

/-- The five expected tokens: `1`, `O'Brien said 'hi'`, `[10,20,30]`,
`true` and the empty value. -/
def scenario_expected : List (List Char) :=
  ["1".data,
   ['O', '\x27', 'B', 'r', 'i', 'e', 'n', ' ',
    's', 'a', 'i', 'd', ' ', '\x27', 'h', 'i', '\x27'],
   "[10,20,30]".data,
   "true".data,
   []]

end DockerLoader

/-! ## Auxiliary definitions used to state and verify the claims -/

/-- Oracle stream that is 1 at position `k` and 0 elsewhere. -/
def oneAt (k : Nat) : Rng := ⟨fun i => if i = k then 1 else 0, 0⟩

/-- Oracle stream that is 1 exactly at the positions of `l`. -/
def onesAt (l : List Nat) : Rng := ⟨fun i => if i ∈ l then 1 else 0, 0⟩

namespace DsbulkGenerate

/-- The sizes of the blocks a cap-`B` buffer emits for `n` appended rows,
starting from a buffer holding `b` rows. -/
def flushSizes (B : Nat) : Nat → Nat → List Nat
  | 0, b => if b = 0 then [] else [b]
  | n + 1, b => if B ≤ b + 1 then (b + 1) :: flushSizes B n 0 else flushSizes B n (b + 1)

end DsbulkGenerate

namespace UserToMessage

/-- The `chat_local_id` values of the rows of `rows` carrying the pair
`(u, p)`, in emission order. -/
def rowsFor (u p : Nat) (rows : List UMRow) : List Nat :=
  (rows.filter (fun row => row.user_id = u ∧ row.peer_id = p)).map
    (fun row => row.chat_local_id)

/-- State invariant: the generated-keys set holds exactly the triples with
local id between 1 and the pair's counter. -/
def WF (st : GenState) : Prop :=
  ∀ u p l, (u, p, l) ∈ st.generated ↔ 1 ≤ l ∧ l ≤ st.counter (u, p)

/-- Whether both ids are fixed (Python takes the sequential path exactly
when neither `user_id` nor `peer_id` is `None`). -/
def isFixed : Option Nat → Option Nat → Bool
  | some _, some _ => true
  | _, _ => false

end UserToMessage

namespace ChatsPeerids

/-- Shift both timestamp fields of a PeerIds row by `d` seconds. -/
def shiftPeerRow (d : Int) (row : PeerRow) : PeerRow :=
  { row with invite_timestamp := row.invite_timestamp + d,
             last_message_ts := row.last_message_ts + d }

/-- Shift the timestamp of a `(user_id, last_message_ts)` pair by `d`. -/
def shiftPair (d : Int) (q : Nat × Int) : Nat × Int := (q.1, q.2 + d)

end ChatsPeerids

/-! ## C4: bucket is the floor-division of the message local id -/

/-- C4: every generated Message row — in the dsbulk CSV generator and in
the CQL INSERT generator alike — carries
`bucket = chat_msg_local_id / 1000` (integer floor division); both fields
are derived from the same message id, so `bucket` is never generated
independently. -/
theorem c4_bucket_floor_div (message_idx : Nat) (chat0 : Option Nat) (r : Rng) :
    ((DsbulkGenerate.generate_message_row message_idx chat0 r).1).bucket =
      ((DsbulkGenerate.generate_message_row message_idx chat0 r).1).chat_msg_local_id / 1000 ∧
    ((GeneratePy.generate_message message_idx chat0 r).1).bucket =
      ((GeneratePy.generate_message message_idx chat0 r).1).chat_msg_local_id / 1000 :=
  ⟨rfl, rfl⟩

/-! ## C5: the SQL value-tuple tokenizer scenario -/

/-- C5: tokenizing the raw value-tuple text
`1, 'O''Brien said ''hi''', [10,20,30], TRUE, NULL` yields exactly the five
values `1`, `O'Brien said 'hi'` (doubled quotes collapsed), the opaque list
text `[10,20,30]`, the normalised boolean `true`, and the empty value for
`NULL`. -/
theorem c5_tokenizer_scenario :
    DockerLoader.parse_sql_values DockerLoader.scenario_input =
      DockerLoader.scenario_expected := by decide

/-! ## C9: the buffered sink flushes 1000/1000/500 on a 2500-row run -/

namespace DsbulkGenerate

theorem optimized_loop_join (chat0 : Option Nat) (B : Nat) :
    ∀ (n i : Nat) (r : Rng) (buffer : List MessageRow),
      (optimized_loop B chat0 n i r buffer).flatten =
        buffer ++ sequential_rows chat0 n i r := by
  intro n
  induction n with
  | zero =>
    intro i r buffer
    cases buffer <;> simp [optimized_loop, sequential_rows]
  | succ n ih =>
    intro i r buffer
    simp only [optimized_loop, sequential_rows]
    by_cases h : B ≤ buffer.length + 1
    · simp [List.length_append, h, ih, List.append_assoc]
    · simp [List.length_append, h, ih, List.append_assoc]

theorem optimized_loop_sizes (chat0 : Option Nat) (B : Nat) :
    ∀ (n i : Nat) (r : Rng) (buffer : List MessageRow),
      (optimized_loop B chat0 n i r buffer).map List.length =
        flushSizes B n buffer.length := by
  intro n
  induction n with
  | zero =>
    intro i r buffer
    cases buffer <;> simp [optimized_loop, flushSizes]
  | succ n ih =>
    intro i r buffer
    simp only [optimized_loop, flushSizes]
    by_cases h : B ≤ buffer.length + 1
    · simp [List.length_append, h, ih]
    · simp [List.length_append, h, ih]

end DsbulkGenerate

set_option maxRecDepth 100000 in
/-- C9: in the buffered (optimized) sink mode with its 1000-row cap, a
2500-row generation performs exactly 3 flushes, of 1000, 1000 and 500 rows
respectively, and the concatenation of the flushed blocks is exactly the
sequentially generated row list — every row is written once, in generation
order. -/
theorem c9_buffered_sink_flushes (chat0 : Option Nat) (r : Rng) :
    (DsbulkGenerate.generate_optimized_csv 2500 chat0 r).length = 3 ∧
    (DsbulkGenerate.generate_optimized_csv 2500 chat0 r).map List.length =
      [1000, 1000, 500] ∧
    (DsbulkGenerate.generate_optimized_csv 2500 chat0 r).flatten =
      DsbulkGenerate.sequential_rows chat0 2500 0 r := by
  have hsz := DsbulkGenerate.optimized_loop_sizes chat0 1000 2500 0 r []
  have hj := DsbulkGenerate.optimized_loop_join chat0 1000 2500 0 r []
  have hfs : DsbulkGenerate.flushSizes 1000 2500 0 = [1000, 1000, 500] := by decide
  simp only [List.length_nil, hfs] at hsz
  refine ⟨?_, hsz, by simpa using hj⟩
  have := congrArg List.length hsz
  simpa using this

/-! ## C6: the CSV record encoder quoting rule -/

namespace DsbulkGenerate

theorem dropWhile_ws_eq_self {s : List Char} {c : Char}
    (h : s.head? = some c) (hc : c.isWhitespace = false) :
    s.dropWhile Char.isWhitespace = s := by
  cases s with
  | nil => rfl
  | cons a t =>
    simp only [List.head?_cons, Option.some.injEq] at h
    subst h
    simp [List.dropWhile, hc]

theorem pyStrip_eq_self {s : List Char}
    (h1 : s.head? = some '{') (h2 : s.getLast? = some '}') :
    pyStrip s = s := by
  unfold pyStrip
  rw [dropWhile_ws_eq_self h1 (by decide)]
  rw [dropWhile_ws_eq_self (s := s.reverse) (by rw [List.head?_reverse]; exact h2)
    (by decide)]
  exact s.reverse_reverse

end DsbulkGenerate

/-- C6: the dsbulk record encoder, on any string containing a comma, a
newline or a double quote, and on any string that begins with `{` and ends
with `}` (even without any other special character), returns the string
wrapped in double quotes with internal double quotes doubled; in
particular `He said "go", now` encodes as `"He said ""go"", now"` and the
JSON-shaped `{"a":1}` encodes as `"{""a"":1}"`. -/
theorem c6_escape_quoting :
    (∀ s : List Char,
      (s.contains ',' || s.contains '\n' || s.contains '\x22') = true ∨
        (s.head? = some '{' ∧ s.getLast? = some '}') →
      DsbulkGenerate.escape_chars s =
        '\x22' :: (DsbulkGenerate.doubleQuotes s ++ ['\x22'])) ∧
    DsbulkGenerate.escape_csv_value "He said \x22go\x22, now" =
      "\x22He said \x22\x22go\x22\x22, now\x22" ∧
    DsbulkGenerate.escape_csv_value "\x7b\x22a\x22:1\x7d" =
      "\x22\x7b\x22\x22a\x22\x22:1\x7d\x22" := by
  refine ⟨?_, by decide, by decide⟩
  intro s h
  cases h with
  | inl hc =>
    by_cases hj : ((DsbulkGenerate.pyStrip s).head? == some '{') &&
        ((DsbulkGenerate.pyStrip s).getLast? == some '}')
    · simp [DsbulkGenerate.escape_chars, hj]
    · simp only [DsbulkGenerate.escape_chars]
      rw [if_neg hj, if_pos hc]
  | inr hj =>
    have hs := DsbulkGenerate.pyStrip_eq_self hj.1 hj.2
    simp [DsbulkGenerate.escape_chars, hs, hj.1, hj.2]

/-- Witness for C6: the plain string `a,b` satisfies the special-character
hypothesis and is quoted with its quotes doubled. -/
theorem c6_escape_quoting_witness :
    (("a,b".data.contains ',' || "a,b".data.contains '\n' ||
        "a,b".data.contains '\x22') = true ∨
      ("a,b".data.head? = some '{' ∧ "a,b".data.getLast? = some '}')) ∧
    DsbulkGenerate.escape_chars "a,b".data =
      '\x22' :: (DsbulkGenerate.doubleQuotes "a,b".data ++ ['\x22']) :=
  ⟨Or.inl (by decide), c6_escape_quoting.1 ("a,b".data) (Or.inl (by decide))⟩

/-! ## C8: last_message_ts versus invite_timestamp -/

namespace ChatsPeerids

theorem row_update_invite (x : PeerRow) (v : Int) :
    ({ x with last_message_ts := v } : PeerRow).invite_timestamp =
      x.invite_timestamp := rfl

theorem row_update_last (x : PeerRow) (v : Int) :
    ({ x with last_message_ts := v } : PeerRow).last_message_ts = v := rfl

theorem le_resolve_pair (used : List (Nat × Int)) (u : Nat) :
    ∀ (k : Nat) (ts : Int) (r : Rng), ts ≤ (resolve_pair used u k ts r).1 := by
  intro k
  induction k with
  | zero => intro ts r; exact le_refl ts
  | succ k ih =>
    intro ts r
    simp only [resolve_pair]
    by_cases h : (u, ts) ∈ used
    · rw [if_pos (List.elem_eq_true_of_mem h)]
      calc ts ≤ ts + ((randint 1 10 r).1 : Int) := by omega
        _ ≤ _ := ih _ _
    · rw [if_neg (by simpa using h)]

theorem generate_peerid_row_invite (u c : Nat) (b : Int) (r : Rng) :
    ((generate_peerid_row u c b r).1).invite_timestamp = b := rfl

theorem generate_peerid_row_last (u c : Nat) (b : Int) (r : Rng) :
    ((generate_peerid_row u c b r).1).last_message_ts =
      b + ((randint 0 (30 * 24 * 3600) r).1 : Int) := rfl

theorem generate_peerid_row_last_ge (u c : Nat) (b : Int) (r : Rng) :
    ((generate_peerid_row u c b r).1).invite_timestamp ≤
      ((generate_peerid_row u c b r).1).last_message_ts := by
  rw [generate_peerid_row_invite, generate_peerid_row_last]
  omega

theorem peerids_loop_last_ge (cids : List Nat) (now : Int) :
    ∀ (n : Nat) (used : List (Nat × Int)) (r : Rng) (row : PeerRow),
      row ∈ (peerids_loop cids now n used r).1 →
      row.invite_timestamp ≤ row.last_message_ts := by
  intro n
  induction n with
  | zero => intro used r row h; exact absurd h (by simp [peerids_loop])
  | succ n ih =>
    intro used r row h
    simp only [peerids_loop, List.mem_cons] at h
    cases h with
    | inl h =>
      subst h
      simp only [peerids_step]
      rw [generate_peerid_row_invite]
      exact le_trans (by omega) (le_resolve_pair _ _ _ _ _)
    | inr h => exact ih _ _ row h

theorem optimized_users_loop_last_ge (cid : Nat) (b : Int) (count : Nat) :
    ∀ (k total : Nat) (r : Rng) (row : PeerRow),
      row ∈ (optimized_users_loop cid b count k total r).1 →
      row.invite_timestamp ≤ row.last_message_ts := by
  intro k
  induction k with
  | zero => intro total r row h; exact absurd h (by simp [optimized_users_loop])
  | succ k ih =>
    intro total r row h
    simp only [optimized_users_loop] at h
    by_cases hc : count ≤ total
    · rw [if_pos hc] at h
      exact absurd h (by simp)
    · rw [if_neg hc] at h
      simp only [List.mem_cons] at h
      cases h with
      | inl h =>
        subst h
        rw [row_update_invite, row_update_last, generate_peerid_row_invite]
        omega
      | inr h => exact ih _ _ row h

theorem optimized_chats_loop_last_ge (count rpc : Nat) (now : Int) :
    ∀ (cids : List Nat) (total : Nat) (r : Rng) (row : PeerRow),
      row ∈ (optimized_chats_loop count rpc now cids total r).1 →
      row.invite_timestamp ≤ row.last_message_ts := by
  intro cids
  induction cids with
  | nil => intro total r row h; exact absurd h (by simp [optimized_chats_loop])
  | cons cid rest ih =>
    intro total r row h
    simp only [optimized_chats_loop] at h
    by_cases hc : count ≤ total
    · rw [if_pos hc] at h
      exact absurd h (by simp)
    · rw [if_neg hc] at h
      simp only [List.mem_append] at h
      cases h with
      | inl h => exact optimized_users_loop_last_ge _ _ _ _ _ _ row h
      | inr h => exact ih _ _ row h

end ChatsPeerids

/-- Counterexample to C8: with the all-zero oracle the 30-day offset of
`generate_peerid_row` is 0 and `last_message_ts` equals
`invite_timestamp`, so `last_message_ts` is not strictly greater. -/
theorem c8_strictness_counterexample :
    ¬ (((ChatsPeerids.generate_peerid_row 5 6 100 zeroRng).1).invite_timestamp <
        ((ChatsPeerids.generate_peerid_row 5 6 100 zeroRng).1).last_message_ts) := by
  decide

/-- C8 (amended): every generated PeerId row satisfies
`last_message_ts ≥ invite_timestamp` (the offsets drawn are allowed to be
0 and every collision perturbation moves the timestamp forward), in the
bare row generator and in the standard and optimized generation modes. -/
theorem c8_last_ge_invite :
    (∀ (u c : Nat) (b : Int) (r : Rng),
      ((ChatsPeerids.generate_peerid_row u c b r).1).invite_timestamp ≤
        ((ChatsPeerids.generate_peerid_row u c b r).1).last_message_ts) ∧
    (∀ (n : Nat) (cids : List Nat) (now : Int) (r : Rng) (row : ChatsPeerids.PeerRow),
      row ∈ (ChatsPeerids.generate_peerids_csv n cids now r).1 →
      row.invite_timestamp ≤ row.last_message_ts) ∧
    (∀ (n : Nat) (cids : List Nat) (now : Int) (r : Rng) (row : ChatsPeerids.PeerRow),
      row ∈ (ChatsPeerids.generate_optimized_peerids n cids now r).1 →
      row.invite_timestamp ≤ row.last_message_ts) :=
  ⟨ChatsPeerids.generate_peerid_row_last_ge,
   fun n cids now r row h => ChatsPeerids.peerids_loop_last_ge cids now n [] r row h,
   fun n cids now r row h =>
     ChatsPeerids.optimized_chats_loop_last_ge n (max 1 (n / cids.length)) now cids 0 r row h⟩

/-- Witness for C8: the single row of a concrete standard-mode run is in
the output and satisfies the inequality. -/
theorem c8_last_ge_invite_witness :
    (⟨1000, 42, 0, 0, 31, 1000, 0, 0, 0⟩ : ChatsPeerids.PeerRow) ∈
      (ChatsPeerids.generate_peerids_csv 1 [42] 0 zeroRng).1 ∧
    (⟨1000, 42, 0, 0, 31, 1000, 0, 0, 0⟩ : ChatsPeerids.PeerRow).invite_timestamp ≤
      (⟨1000, 42, 0, 0, 31, 1000, 0, 0, 0⟩ : ChatsPeerids.PeerRow).last_message_ts :=
  ⟨by decide, c8_last_ge_invite.2.1 1 [42] 0 zeroRng _ (by decide)⟩

/-! ## C3: the forwarded flag versus forwarded_message_ids -/

/-- Counterexample to C3: an oracle stream on which the dsbulk generator
draws `forwarded = true` while its independently drawn
`forwarded_message_ids` is the empty list text `[]` — `forwarded` is not
the non-emptiness of `forwarded_message_ids`. -/
theorem c3_forwarded_counterexample :
    ((DsbulkGenerate.generate_message_row 5 (some 7) (oneAt 12)).1).forwarded = true ∧
    ((DsbulkGenerate.generate_message_row 5 (some 7) (oneAt 12)).1).forwarded_message_ids =
      "[]" := by
  exact ⟨rfl, rfl⟩

/-- C3 (amended): in both Message generators, `forwarded` is drawn by its
own, independent random test (dsbulk: a fresh `random.random() < 0.15`;
generate.py: the non-emptiness of a first, immediately discarded call of
`generate_forwarded_message_ids`), so all four combinations of
(`forwarded`, `forwarded_message_ids` empty or not) occur; `forwarded`
agrees with the non-emptiness of the emitted list only when the
independent draws happen to agree. -/
theorem c3_forwarded_independent_draw :
    (∃ r : Rng, ((DsbulkGenerate.generate_message_row 5 (some 7) r).1).forwarded = true ∧
      ((DsbulkGenerate.generate_message_row 5 (some 7) r).1).forwarded_message_ids ≠ "[]") ∧
    (∃ r : Rng, ((DsbulkGenerate.generate_message_row 5 (some 7) r).1).forwarded = false ∧
      ((DsbulkGenerate.generate_message_row 5 (some 7) r).1).forwarded_message_ids = "[]") ∧
    (∃ r : Rng, ((DsbulkGenerate.generate_message_row 5 (some 7) r).1).forwarded = false ∧
      ((DsbulkGenerate.generate_message_row 5 (some 7) r).1).forwarded_message_ids ≠ "[]") ∧
    (∃ r : Rng, ((DsbulkGenerate.generate_message_row 5 (some 7) r).1).forwarded = true ∧
      ((DsbulkGenerate.generate_message_row 5 (some 7) r).1).forwarded_message_ids = "[]") ∧
    (∃ r : Rng, ((GeneratePy.generate_message 5 (some 7) r).1).forwarded = true ∧
      ((GeneratePy.generate_message 5 (some 7) r).1).forwarded_message_ids ≠ []) ∧
    (∃ r : Rng, ((GeneratePy.generate_message 5 (some 7) r).1).forwarded = false ∧
      ((GeneratePy.generate_message 5 (some 7) r).1).forwarded_message_ids = []) ∧
    (∃ r : Rng, ((GeneratePy.generate_message 5 (some 7) r).1).forwarded = false ∧
      ((GeneratePy.generate_message 5 (some 7) r).1).forwarded_message_ids ≠ []) ∧
    (∃ r : Rng, ((GeneratePy.generate_message 5 (some 7) r).1).forwarded = true ∧
      ((GeneratePy.generate_message 5 (some 7) r).1).forwarded_message_ids = []) :=
  ⟨⟨zeroRng, rfl, by decide⟩,
   ⟨onesAt [11, 12], rfl, rfl⟩,
   ⟨oneAt 11, rfl, by decide⟩,
   ⟨oneAt 12, rfl, rfl⟩,
   ⟨zeroRng, rfl, by decide⟩,
   ⟨onesAt [23, 24], rfl, rfl⟩,
   ⟨oneAt 23, rfl, by decide⟩,
   ⟨oneAt 26, rfl, rfl⟩⟩

/-! ## C10: the (user_id, peer_id) allocation search -/

namespace UserToMessage

theorem unique_key_all_capped (fuel pos : Nat) :
    generate_unique_message_key (fun _ => 1000) fuel ⟨fun _ => 0, pos⟩ = none := by
  induction fuel generalizing pos with
  | zero => rfl
  | succ fuel ih =>
    simp only [generate_unique_message_key, choiceRange, Rng.next]
    norm_num
    exact ih (pos + 1 + 1)

theorem unique_key_spec (counter : Nat × Nat → Nat) :
    ∀ (fuel : Nat) (r r1 : Rng) (u p l : Nat),
      generate_unique_message_key counter fuel r = some ((u, p, l), r1) →
      counter (u, p) < 1000 ∧ l = counter (u, p) + 1 := by
  intro fuel
  induction fuel with
  | zero =>
    intro r r1 u p l h
    exact absurd h (by simp [generate_unique_message_key])
  | succ fuel ih =>
    intro r r1 u p l h
    simp only [generate_unique_message_key] at h
    split_ifs at h with h1 h2
    · simp only [Option.some.injEq, Prod.mk.injEq] at h
      obtain ⟨⟨hu, hp, hl⟩, _⟩ := h
      subst hu; subst hp; subst hl
      simp [h1]
    · simp only [Option.some.injEq, Prod.mk.injEq] at h
      obtain ⟨⟨hu, hp, hl⟩, _⟩ := h
      subst hu; subst hp; subst hl
      exact ⟨h2, rfl⟩
    · exact ih _ _ _ _ _ h

end UserToMessage

/-- Counterexample to C10: from a state in which every pair has reached
the 1000 cap, the allocation loop never returns, for any amount of fuel —
the search is unbounded and there is no degrade-to-overflow: the call
would loop forever rather than start a new pair. -/
theorem c10_search_counterexample :
    ¬ ∃ fuel : Nat,
      (UserToMessage.generate_unique_message_key (fun _ => 1000) fuel zeroRng).isSome =
        true := by
  rintro ⟨fuel, h⟩
  rw [show zeroRng = ⟨fun _ => 0, 0⟩ from rfl,
    UserToMessage.unique_key_all_capped fuel 0] at h
  exact absurd h (by simp)

/-- C10 (amended): whenever the allocation returns, it returns a pair that
was strictly below the 1000 cap, with the successor local id — so the
returned `chat_local_id` never exceeds 1000 and no overflow row is ever
produced; when every sampled pair is at the cap the loop simply does not
terminate (see the counterexample), rather than degrading to an overflow
allocation. -/
theorem c10_allocation_below_cap (counter : Nat × Nat → Nat) (fuel : Nat)
    (r r1 : Rng) (u p l : Nat)
    (h : UserToMessage.generate_unique_message_key counter fuel r =
      some ((u, p, l), r1)) :
    counter (u, p) < 1000 ∧ l = counter (u, p) + 1 ∧ l ≤ 1000 := by
  obtain ⟨h1, h2⟩ := UserToMessage.unique_key_spec counter fuel r r1 u p l h
  exact ⟨h1, h2, by omega⟩

/-- Witness for C10: a fresh counter allocates `(1000, 1000, 1)` from the
all-zero oracle with one unit of fuel, and the returned local id respects
the cap. -/
theorem c10_allocation_below_cap_witness :
    (fun (_ : Nat × Nat) => 0) (1000, 1000) < 1000 ∧
    1 = (fun (_ : Nat × Nat) => 0) (1000, 1000) + 1 ∧ 1 ≤ 1000 :=
  c10_allocation_below_cap (fun _ => 0) 1 zeroRng ⟨fun _ => 0, 2⟩ 1000 1000 1 rfl

/-! ## C2: uniqueness of (user_id, last_message_ts) pairs -/

namespace ChatsPeerids

theorem peerids_loop_used (cids : List Nat) (now : Int) :
    ∀ (n : Nat) (used : List (Nat × Int)) (r : Rng),
      (peerids_loop cids now n used r).2.1 =
        ((peerids_loop cids now n used r).1.map rowPair).reverse ++ used := by
  intro n
  induction n with
  | zero => intro used r; simp [peerids_loop]
  | succ n ih =>
    intro used r
    simp only [peerids_loop, List.map_cons, List.reverse_cons]
    rw [ih]
    simp [List.append_assoc]

theorem peerids_loop_nodup (cids : List Nat) (now : Int) :
    ∀ (n : Nat) (used : List (Nat × Int)) (r : Rng),
      (peerids_loop cids now n used r).2.2.1 = false →
      ((peerids_loop cids now n used r).1.map rowPair).Nodup ∧
        ∀ q ∈ (peerids_loop cids now n used r).1.map rowPair, q ∉ used := by
  intro n
  induction n with
  | zero => intro used r _h; simp [peerids_loop]
  | succ n ih =>
    intro used r h
    simp only [peerids_loop] at h ⊢
    rw [Bool.or_eq_false_iff] at h
    obtain ⟨hclash, hrest⟩ := h
    obtain ⟨hnd, hdisj⟩ := ih (rowPair (peerids_step cids now used r).1 :: used)
      (peerids_step cids now used r).2 hrest
    have hp0 : rowPair (peerids_step cids now used r).1 ∉ used := by
      simpa using hclash
    refine ⟨?_, ?_⟩
    · rw [List.map_cons]
      refine List.nodup_cons.mpr ⟨?_, hnd⟩
      intro hmem
      exact (hdisj _ hmem) (List.mem_cons_self _ _)
    · intro q hq
      rw [List.map_cons, List.mem_cons] at hq
      cases hq with
      | inl hq => subst hq; exact hp0
      | inr hq => exact fun hqused => (hdisj q hq) (List.mem_cons_of_mem _ hqused)

end ChatsPeerids

/-- Counterexample to C2: the optimized generation mode performs no
uniqueness bookkeeping at all — a concrete 2-row optimized run emits two
rows with the identical `(user_id, last_message_ts)` pair `(1000, 0)`,
without any retry having been exhausted. -/
theorem c2_optimized_counterexample :
    ((ChatsPeerids.generate_optimized_peerids 2 [42] 0 zeroRng).1.map
        ChatsPeerids.rowPair) = [(1000, 0), (1000, 0)] ∧
    ¬ ((ChatsPeerids.generate_optimized_peerids 2 [42] 0 zeroRng).1.map
        ChatsPeerids.rowPair).Nodup :=
  ⟨rfl, by decide⟩

/-- C2 (amended): in the standard generation mode, if no row exhausted its
10 collision-resolution attempts, the `(user_id, last_message_ts)` pairs
of the generated rows are pairwise distinct; each collision perturbation
only moves `last_message_ts` forward.  (The optimized mode performs no
uniqueness check — see the counterexample.) -/
theorem c2_standard_mode_unique_pairs :
    (∀ (n : Nat) (cids : List Nat) (now : Int) (r : Rng),
      (ChatsPeerids.generate_peerids_csv n cids now r).2.2.1 = false →
      ((ChatsPeerids.generate_peerids_csv n cids now r).1.map
        ChatsPeerids.rowPair).Nodup) ∧
    (∀ (used : List (Nat × Int)) (u k : Nat) (ts : Int) (r : Rng),
      ts ≤ (ChatsPeerids.resolve_pair used u k ts r).1) :=
  ⟨fun n cids now r h => (ChatsPeerids.peerids_loop_nodup cids now n [] r h).1,
   fun used u k ts r => ChatsPeerids.le_resolve_pair used u k ts r⟩

/-- Witness for C2: a concrete 3-row standard run reports no retry
exhaustion and its pairs are pairwise distinct. -/
theorem c2_standard_mode_unique_pairs_witness :
    (ChatsPeerids.generate_peerids_csv 3 [42] 0 zeroRng).2.2.1 = false ∧
    ((ChatsPeerids.generate_peerids_csv 3 [42] 0 zeroRng).1.map
      ChatsPeerids.rowPair).Nodup :=
  ⟨rfl, c2_standard_mode_unique_pairs.1 3 [42] 0 zeroRng rfl⟩

/-! ## C7: determinism and the wall clock -/

namespace ChatsPeerids

theorem shiftPair_injective (d : Int) : Function.Injective (shiftPair d) := by
  intro a b h
  obtain ⟨a1, a2⟩ := a
  obtain ⟨b1, b2⟩ := b
  simp only [shiftPair, Prod.mk.injEq] at h ⊢
  exact ⟨h.1, by omega⟩

theorem contains_map_shiftPair (used : List (Nat × Int)) (q : Nat × Int) (d : Int) :
    (used.map (shiftPair d)).contains (shiftPair d q) = used.contains q := by
  by_cases h : q ∈ used
  · have h2 : shiftPair d q ∈ used.map (shiftPair d) :=
      List.mem_map.mpr ⟨q, h, rfl⟩
    simp [h, h2]
  · have h2 : shiftPair d q ∉ used.map (shiftPair d) := fun hmem => by
      obtain ⟨q1, hq1, he⟩ := List.mem_map.mp hmem
      exact h ((shiftPair_injective d he) ▸ hq1)
    simp [h, h2]

theorem generate_timestamp_shift (yb : Nat) (now d : Int) (r : Rng) :
    generate_timestamp yb (now + d) r =
      ((generate_timestamp yb now r).1 + d, (generate_timestamp yb now r).2) := by
  simp only [generate_timestamp, Prod.mk.injEq]
  refine ⟨by ring, trivial⟩

theorem generate_peerid_row_shift (u c : Nat) (b d : Int) (r : Rng) :
    generate_peerid_row u c (b + d) r =
      (shiftPeerRow d (generate_peerid_row u c b r).1,
       (generate_peerid_row u c b r).2) := by
  simp only [generate_peerid_row, shiftPeerRow, Prod.mk.injEq, PeerRow.mk.injEq]
  norm_num
  ring

theorem resolve_pair_shift (used : List (Nat × Int)) (u : Nat) (d : Int) :
    ∀ (k : Nat) (ts : Int) (r : Rng),
      resolve_pair (used.map (shiftPair d)) u k (ts + d) r =
        ((resolve_pair used u k ts r).1 + d, (resolve_pair used u k ts r).2) := by
  intro k
  induction k with
  | zero => intro ts r; rfl
  | succ k ih =>
    intro ts r
    simp only [resolve_pair]
    by_cases h : (u, ts) ∈ used
    · have h2 : ((u, ts + d) : Nat × Int) ∈ used.map (shiftPair d) :=
        List.mem_map.mpr ⟨(u, ts), h, rfl⟩
      rw [if_pos (List.elem_eq_true_of_mem h2), if_pos (List.elem_eq_true_of_mem h)]
      rw [show ts + d + ((randint 1 10 r).1 : Int) =
        ts + ((randint 1 10 r).1 : Int) + d by ring]
      exact ih _ _
    · have h2 : ((u, ts + d) : Nat × Int) ∉ used.map (shiftPair d) := fun hmem => by
        obtain ⟨q1, hq1, he⟩ := List.mem_map.mp hmem
        have he2 : shiftPair d q1 = shiftPair d (u, ts) := he
        exact h ((shiftPair_injective d he2) ▸ hq1)
      rw [if_neg (by simpa using h2), if_neg (by simpa using h)]

theorem rowPair_shift (d : Int) (row : PeerRow) :
    rowPair (shiftPeerRow d row) = shiftPair d (rowPair row) := rfl

theorem shiftPeerRow_update (x : PeerRow) (v d : Int) :
    shiftPeerRow d ({ x with last_message_ts := v }) =
      { shiftPeerRow d x with last_message_ts := v + d } := rfl

theorem peerids_step_shift (cids : List Nat) (now d : Int)
    (used : List (Nat × Int)) (r : Rng) :
    peerids_step cids (now + d) (used.map (shiftPair d)) r =
      (shiftPeerRow d (peerids_step cids now used r).1,
       (peerids_step cids now used r).2) := by
  simp only [peerids_step, generate_timestamp_shift]
  rw [show (generate_timestamp 3 now
        (choiceList cids (choiceRange 1000 1000000 r).2).2).1 + d +
      ((randint 0 (180 * 24 * 3600)
        (generate_timestamp 3 now
          (choiceList cids (choiceRange 1000 1000000 r).2).2).2).1 : Int) =
    (generate_timestamp 3 now
        (choiceList cids (choiceRange 1000 1000000 r).2).2).1 +
      ((randint 0 (180 * 24 * 3600)
        (generate_timestamp 3 now
          (choiceList cids (choiceRange 1000 1000000 r).2).2).2).1 : Int) + d
    from by ring]
  simp only [resolve_pair_shift, generate_peerid_row_shift, shiftPeerRow_update]

theorem peerids_loop_shift (cids : List Nat) (now d : Int) :
    ∀ (n : Nat) (used : List (Nat × Int)) (r : Rng),
      peerids_loop cids (now + d) n (used.map (shiftPair d)) r =
        ((peerids_loop cids now n used r).1.map (shiftPeerRow d),
         (peerids_loop cids now n used r).2.1.map (shiftPair d),
         (peerids_loop cids now n used r).2.2.1,
         (peerids_loop cids now n used r).2.2.2) := by
  intro n
  induction n with
  | zero => intro used r; simp [peerids_loop]
  | succ n ih =>
    intro used r
    simp only [peerids_loop]
    rw [peerids_step_shift, rowPair_shift, contains_map_shiftPair,
      show shiftPair d (rowPair (peerids_step cids now used r).1) ::
          used.map (shiftPair d) =
        (rowPair (peerids_step cids now used r).1 :: used).map (shiftPair d)
      from rfl, ih]
    simp

end ChatsPeerids

/-- Counterexample to C7: the same seed (oracle stream) and row count, at
two different wall-clock readings, produce different PeerIds rows —
byte-identical reruns are not guaranteed by the seed alone, because
`generate_timestamp` starts from `datetime.now()`. -/
theorem c7_clock_dependence_counterexample :
    (ChatsPeerids.generate_peerids_csv 1 [42] 0 zeroRng).1 ≠
      (ChatsPeerids.generate_peerids_csv 1 [42] 86400 zeroRng).1 := by
  decide

/-- C7 (amended): output is a deterministic function of the seed and the
clock.  The Messages generators use the fixed base 2020-01-01, but the
Chats/PeerIds generator shifts with the clock: with the same oracle
stream, a standard-mode run at clock `now + d` yields exactly the rows of
the run at clock `now` with both timestamp fields shifted by `d`; output
is reproduced byte-for-byte only when the clock reading is also equal. -/
theorem c7_clock_shift_equivariance (n : Nat) (cids : List Nat) (now d : Int)
    (r : Rng) :
    (ChatsPeerids.generate_peerids_csv n cids (now + d) r).1 =
      (ChatsPeerids.generate_peerids_csv n cids now r).1.map
        (ChatsPeerids.shiftPeerRow d) := by
  have h := ChatsPeerids.peerids_loop_shift cids now d n [] r
  simp only [List.map_nil] at h
  exact congrArg (fun x => x.1) h

/-! ## C1: chat_local_id sequences per (user_id, peer_id) pair -/

namespace UserToMessage

theorem WF_initState : WF initState := by
  intro u p l
  simp [initState, WF]
  omega

theorem record_tail_eq (st : GenState) (u p cl0 : Nat)
    (counter0 : Nat × Nat → Nat) (r1 : Rng) (hwf : WF st)
    (hcl : cl0 = st.counter (u, p) + 1)
    (hc0 : Function.update counter0 (u, p) cl0 =
      Function.update st.counter (u, p) cl0) :
    record_tail st u p cl0 counter0 r1 =
      ({ user_id := u, peer_id := p, chat_local_id := cl0,
         flags := (generate_flags r1).1 },
       { counter := Function.update st.counter (u, p) cl0,
         generated := (u, p, cl0) :: st.generated },
       (generate_flags r1).2) := by
  have hdup : st.generated.contains (u, p, cl0) = false := by
    rw [← Bool.not_eq_true]
    intro hc
    have hm : ((u, p, cl0) : Nat × Nat × Nat) ∈ st.generated := by simpa using hc
    have := (hwf u p cl0).mp hm
    omega
  simp only [record_tail, hdup, Bool.false_eq_true, if_false, hc0]

theorem WF_update (st : GenState) (u p cl0 : Nat) (hwf : WF st)
    (hcl : cl0 = st.counter (u, p) + 1) :
    WF { counter := Function.update st.counter (u, p) cl0,
         generated := (u, p, cl0) :: st.generated } := by
  intro u1 p1 l1
  simp only [List.mem_cons, Prod.mk.injEq, Function.update_apply]
  by_cases hk : u1 = u ∧ p1 = p
  · rw [if_pos hk]
    obtain ⟨hu, hp⟩ := hk
    subst hu
    subst hp
    constructor
    · rintro (⟨h1, h2, h3⟩ | hm)
      · omega
      · have := (hwf u1 p1 l1).mp hm
        omega
    · rintro ⟨h1, h2⟩
      by_cases hl : l1 = cl0
      · exact Or.inl ⟨rfl, rfl, hl⟩
      · exact Or.inr ((hwf u1 p1 l1).mpr ⟨h1, by omega⟩)
  · rw [if_neg hk]
    constructor
    · rintro (⟨h1, h2, h3⟩ | hm)
      · exact absurd ⟨h1, h2⟩ hk
      · exact (hwf u1 p1 l1).mp hm
    · intro hb
      exact Or.inr ((hwf u1 p1 l1).mpr hb)

theorem generate_record_row_spec (i : Nat) (uid0 pid0 : Option Nat)
    (st : GenState) (fuel : Nat) (r : Rng) (row : UMRow) (st1 : GenState)
    (r1 : Rng) (hwf : WF st)
    (h : generate_record_row i uid0 pid0 st fuel r = some (row, st1, r1)) :
    row.chat_local_id = st.counter (row.user_id, row.peer_id) + 1 ∧
    st1.counter = Function.update st.counter (row.user_id, row.peer_id)
      row.chat_local_id ∧
    WF st1 ∧
    (isFixed uid0 pid0 = false →
      st.counter (row.user_id, row.peer_id) < 1000) ∧
    (∀ u p, uid0 = some u → pid0 = some p →
      row.user_id = u ∧ row.peer_id = p) := by
  have tail_case :
      ∀ (u p cl0 : Nat) (counter0 : Nat × Nat → Nat) (r2 : Rng),
        cl0 = st.counter (u, p) + 1 →
        Function.update counter0 (u, p) cl0 =
          Function.update st.counter (u, p) cl0 →
        some (record_tail st u p cl0 counter0 r2) = some (row, st1, r1) →
        row = { user_id := u, peer_id := p, chat_local_id := cl0,
                flags := (generate_flags r2).1 } ∧
        st1 = { counter := Function.update st.counter (u, p) cl0,
                generated := (u, p, cl0) :: st.generated } := by
    intro u p cl0 counter0 r2 hcl hc0 heq
    rw [record_tail_eq st u p cl0 counter0 r2 hwf hcl hc0] at heq
    simp only [Option.some.injEq, Prod.mk.injEq] at heq
    exact ⟨heq.1.symm, heq.2.1.symm⟩
  cases uid0 with
  | some u0 =>
    cases pid0 with
    | some p0 =>
      simp only [generate_record_row, get_next_chat_local_id] at h
      obtain ⟨hrow, hst1⟩ := tail_case u0 p0 (st.counter (u0, p0) + 1)
        (Function.update st.counter (u0, p0) (st.counter (u0, p0) + 1)) r rfl
        (Function.update_idem _ _ _) h
      subst hrow
      subst hst1
      refine ⟨rfl, rfl, WF_update st u0 p0 _ hwf rfl, ?_, ?_⟩
      · intro hff
        exact absurd hff (by simp [isFixed])
      · intro u p hu hp
        cases hu
        cases hp
        exact ⟨rfl, rfl⟩
    | none =>
      simp only [generate_record_row] at h
      cases hk : generate_unique_message_key st.counter fuel r with
      | none => rw [hk] at h; exact absurd h (by simp)
      | some kr =>
        rw [hk] at h
        obtain ⟨⟨u, p, l⟩, r2⟩ := kr
        obtain ⟨hlt, hl⟩ := unique_key_spec st.counter fuel r r2 u p l hk
        obtain ⟨hrow, hst1⟩ := tail_case u p l st.counter r2 hl rfl h
        subst hrow
        subst hst1
        refine ⟨by simpa using hl, rfl, WF_update st u p _ hwf hl, fun _ => hlt, ?_⟩
        · intro u1 p1 hu hp
          cases hp
  | none =>
    simp only [generate_record_row] at h
    cases hk : generate_unique_message_key st.counter fuel r with
    | none => rw [hk] at h; exact absurd h (by simp)
    | some kr =>
      rw [hk] at h
      obtain ⟨⟨u, p, l⟩, r2⟩ := kr
      obtain ⟨hlt, hl⟩ := unique_key_spec st.counter fuel r r2 u p l hk
      obtain ⟨hrow, hst1⟩ := tail_case u p l st.counter r2 hl rfl h
      subst hrow
      subst hst1
      refine ⟨by simpa using hl, rfl, WF_update st u p _ hwf hl, fun _ => hlt, ?_⟩
      · intro u1 p1 hu hp
        cases hu

end UserToMessage

namespace UserToMessage

theorem rowsFor_cons_pos (u p : Nat) (row : UMRow) (rows : List UMRow)
    (h1 : row.user_id = u) (h2 : row.peer_id = p) :
    rowsFor u p (row :: rows) = row.chat_local_id :: rowsFor u p rows := by
  simp [rowsFor, List.filter_cons, h1, h2]

theorem rowsFor_cons_neg (u p : Nat) (row : UMRow) (rows : List UMRow)
    (h : ¬ (row.user_id = u ∧ row.peer_id = p)) :
    rowsFor u p (row :: rows) = rowsFor u p rows := by
  simp [rowsFor, List.filter_cons, h]

theorem run_spec (uid0 pid0 : Option Nat) (fuel : Nat) :
    ∀ (n i : Nat) (st : GenState) (r : Rng) (rows : List UMRow)
      (st1 : GenState) (r1 : Rng), WF st →
      run uid0 pid0 fuel n i st r = some (rows, st1, r1) →
      WF st1 ∧
      ∀ u p, st.counter (u, p) ≤ st1.counter (u, p) ∧
        rowsFor u p rows =
          List.range' (st.counter (u, p) + 1)
            (st1.counter (u, p) - st.counter (u, p)) := by
  intro n
  induction n with
  | zero =>
    intro i st r rows st1 r1 hwf h
    simp only [run, Option.some.injEq, Prod.mk.injEq] at h
    obtain ⟨h1, h2, h3⟩ := h
    subst h1
    subst h2
    refine ⟨hwf, fun u p => ⟨le_refl _, ?_⟩⟩
    simp [rowsFor]
  | succ n ih =>
    intro i st r rows st1 r1 hwf h
    simp only [run] at h
    cases hrec : generate_record_row i uid0 pid0 st fuel r with
    | none => rw [hrec] at h; exact absurd h (by simp)
    | some x =>
      rw [hrec] at h
      obtain ⟨row, stA, rA⟩ := x
      simp only [] at h
      cases hrun : run uid0 pid0 fuel n (i + 1) stA rA with
      | none => rw [hrun] at h; exact absurd h (by simp)
      | some y =>
        rw [hrun] at h
        obtain ⟨rows2, stB, rB⟩ := y
        simp only [Option.some.injEq, Prod.mk.injEq] at h
        obtain ⟨h1, h2, h3⟩ := h
        subst h1
        subst h2
        obtain ⟨hcl, hcnt, hwfA, _, _⟩ :=
          generate_record_row_spec i uid0 pid0 st fuel r row stA rA hwf hrec
        obtain ⟨hwfB, hrest⟩ := ih (i + 1) stA rA rows2 stB rB hwfA hrun
        refine ⟨hwfB, fun u p => ?_⟩
        obtain ⟨hmono, hrows⟩ := hrest u p
        by_cases hk : row.user_id = u ∧ row.peer_id = p
        · obtain ⟨hu, hp⟩ := hk
          have hcntA : stA.counter (u, p) = st.counter (u, p) + 1 := by
            rw [hcnt, hu, hp, Function.update_apply, if_pos rfl, hcl, hu, hp]
          rw [hcntA] at hmono hrows
          refine ⟨by omega, ?_⟩
          rw [rowsFor_cons_pos u p row rows2 hu hp, hrows]
          rw [show row.chat_local_id = st.counter (u, p) + 1 from by
            rw [hcl, hu, hp]]
          rw [show stB.counter (u, p) - st.counter (u, p) =
            (stB.counter (u, p) - (st.counter (u, p) + 1)) + 1 from by omega]
          rfl
        · have hne : ¬ ((u, p) : Nat × Nat) = (row.user_id, row.peer_id) := by
            intro he
            simp only [Prod.mk.injEq] at he
            exact hk ⟨he.1.symm, he.2.symm⟩
          have hcntA : stA.counter (u, p) = st.counter (u, p) := by
            rw [hcnt, Function.update_apply, if_neg hne]
          rw [hcntA] at hmono hrows
          exact ⟨hmono, by rw [rowsFor_cons_neg u p row rows2 hk, hrows]⟩

theorem run_cap (uid0 pid0 : Option Nat) (hnf : isFixed uid0 pid0 = false)
    (fuel : Nat) :
    ∀ (n i : Nat) (st : GenState) (r : Rng) (rows : List UMRow)
      (st1 : GenState) (r1 : Rng), WF st →
      (∀ u p, st.counter (u, p) ≤ 1000) →
      run uid0 pid0 fuel n i st r = some (rows, st1, r1) →
      ∀ u p, st1.counter (u, p) ≤ 1000 := by
  intro n
  induction n with
  | zero =>
    intro i st r rows st1 r1 hwf hcap h
    simp only [run, Option.some.injEq, Prod.mk.injEq] at h
    obtain ⟨h1, h2, h3⟩ := h
    subst h2
    exact hcap
  | succ n ih =>
    intro i st r rows st1 r1 hwf hcap h
    simp only [run] at h
    cases hrec : generate_record_row i uid0 pid0 st fuel r with
    | none => rw [hrec] at h; exact absurd h (by simp)
    | some x =>
      rw [hrec] at h
      obtain ⟨row, stA, rA⟩ := x
      simp only [] at h
      cases hrun : run uid0 pid0 fuel n (i + 1) stA rA with
      | none => rw [hrun] at h; exact absurd h (by simp)
      | some y =>
        rw [hrun] at h
        obtain ⟨rows2, stB, rB⟩ := y
        simp only [Option.some.injEq, Prod.mk.injEq] at h
        obtain ⟨h1, h2, h3⟩ := h
        subst h2
        obtain ⟨hcl, hcnt, hwfA, hlt, _⟩ :=
          generate_record_row_spec i uid0 pid0 st fuel r row stA rA hwf hrec
        have hcapA : ∀ u p, stA.counter (u, p) ≤ 1000 := by
          intro u p
          rw [hcnt, Function.update_apply]
          by_cases hkk : ((u, p) : Nat × Nat) = (row.user_id, row.peer_id)
          · rw [if_pos hkk, hcl]
            have := hlt hnf
            omega
          · rw [if_neg hkk]
            exact hcap u p
        exact ih (i + 1) stA rA rows2 stB rB hwfA hcapA hrun

theorem run_length (uid0 pid0 : Option Nat) (fuel : Nat) :
    ∀ (n i : Nat) (st : GenState) (r : Rng) (rows : List UMRow)
      (st1 : GenState) (r1 : Rng),
      run uid0 pid0 fuel n i st r = some (rows, st1, r1) →
      rows.length = n := by
  intro n
  induction n with
  | zero =>
    intro i st r rows st1 r1 h
    simp only [run, Option.some.injEq, Prod.mk.injEq] at h
    rw [← h.1]
    rfl
  | succ n ih =>
    intro i st r rows st1 r1 h
    simp only [run] at h
    cases hrec : generate_record_row i uid0 pid0 st fuel r with
    | none => rw [hrec] at h; exact absurd h (by simp)
    | some x =>
      rw [hrec] at h
      obtain ⟨row, stA, rA⟩ := x
      simp only [] at h
      cases hrun : run uid0 pid0 fuel n (i + 1) stA rA with
      | none => rw [hrun] at h; exact absurd h (by simp)
      | some y =>
        rw [hrun] at h
        obtain ⟨rows2, stB, rB⟩ := y
        simp only [Option.some.injEq, Prod.mk.injEq] at h
        rw [← h.1]
        simp [ih (i + 1) stA rA rows2 stB rB hrun]

theorem run_fixed_some (u p fuel : Nat) :
    ∀ (n i : Nat) (st : GenState) (r : Rng),
      ∃ rows st1 r1,
        run (some u) (some p) fuel n i st r = some (rows, st1, r1) := by
  intro n
  induction n with
  | zero => intro i st r; exact ⟨[], st, r, rfl⟩
  | succ n ih =>
    intro i st r
    obtain ⟨rows, st1, r1, hrun⟩ := ih (i + 1)
      (record_tail st u p (get_next_chat_local_id st.counter u p).1
        (get_next_chat_local_id st.counter u p).2 r).2.1
      (record_tail st u p (get_next_chat_local_id st.counter u p).1
        (get_next_chat_local_id st.counter u p).2 r).2.2
    refine ⟨(record_tail st u p (get_next_chat_local_id st.counter u p).1
      (get_next_chat_local_id st.counter u p).2 r).1 :: rows, st1, r1, ?_⟩
    simp only [run, generate_record_row]
    rw [hrun]

theorem run_fixed_all_pairs (u p fuel : Nat) :
    ∀ (n i : Nat) (st : GenState) (r : Rng) (rows : List UMRow)
      (st1 : GenState) (r1 : Rng), WF st →
      run (some u) (some p) fuel n i st r = some (rows, st1, r1) →
      ∀ row ∈ rows, row.user_id = u ∧ row.peer_id = p := by
  intro n
  induction n with
  | zero =>
    intro i st r rows st1 r1 hwf h
    simp only [run, Option.some.injEq, Prod.mk.injEq] at h
    rw [← h.1]
    intro row hrow
    exact absurd hrow (by simp)
  | succ n ih =>
    intro i st r rows st1 r1 hwf h
    simp only [run] at h
    cases hrec : generate_record_row i (some u) (some p) st fuel r with
    | none => rw [hrec] at h; exact absurd h (by simp)
    | some x =>
      rw [hrec] at h
      obtain ⟨row, stA, rA⟩ := x
      simp only [] at h
      cases hrun : run (some u) (some p) fuel n (i + 1) stA rA with
      | none => rw [hrun] at h; exact absurd h (by simp)
      | some y =>
        rw [hrun] at h
        obtain ⟨rows2, stB, rB⟩ := y
        simp only [Option.some.injEq, Prod.mk.injEq] at h
        obtain ⟨h1, h2, h3⟩ := h
        subst h1
        obtain ⟨_, _, hwfA, _, hfix⟩ :=
          generate_record_row_spec i (some u) (some p) st fuel r row stA rA hwf hrec
        intro row2 hrow2
        rcases List.mem_cons.mp hrow2 with hr | hr
        · subst hr
          exact hfix u p rfl rfl
        · exact ih (i + 1) stA rA rows2 stB rB hwfA hrun row2 hr

theorem run_fixed_rowsFor (u p fuel n i : Nat) (r : Rng) (rows : List UMRow)
    (st1 : GenState) (r1 : Rng)
    (h : run (some u) (some p) fuel n i initState r = some (rows, st1, r1)) :
    rowsFor u p rows = List.range' 1 n := by
  obtain ⟨hwf1, hrest⟩ :=
    run_spec (some u) (some p) fuel n i initState r rows st1 r1 WF_initState h
  obtain ⟨hmono, hrows⟩ := hrest u p
  have h0 : initState.counter (u, p) = 0 := rfl
  rw [h0] at hrows
  simp only [Nat.zero_add, Nat.sub_zero] at hrows
  have hall :=
    run_fixed_all_pairs u p fuel n i initState r rows st1 r1 WF_initState h
  have hlen : (rowsFor u p rows).length = rows.length := by
    simp only [rowsFor, List.length_map]
    congr 1
    rw [List.filter_eq_self]
    intro row hrow
    obtain ⟨h1, h2⟩ := hall row hrow
    simp [h1, h2]
  have hn := run_length (some u) (some p) fuel n i initState r rows st1 r1 h
  have hc : st1.counter (u, p) = n := by
    have hL := congrArg List.length hrows
    rw [hlen, hn, List.length_range'] at hL
    omega
  rw [hrows, hc]

end UserToMessage

/-- Counterexample to C1: with fixed overrides `user_id = 1`, `peer_id = 1`
and 1001 generated rows, the run succeeds and emits `chat_local_id = 1001`
for the pair `(1, 1)` — the 1000-per-pair cap is not enforced on the
fixed-override path. -/
theorem c1_cap_counterexample :
    ∃ rows st1 r1,
      UserToMessage.run (some 1) (some 1) 1 1001 0 UserToMessage.initState
        zeroRng = some (rows, st1, r1) ∧
      1001 ∈ UserToMessage.rowsFor 1 1 rows := by
  obtain ⟨rows, st1, r1, hrun⟩ :=
    UserToMessage.run_fixed_some 1 1 1 1001 0 UserToMessage.initState zeroRng
  refine ⟨rows, st1, r1, hrun, ?_⟩
  rw [UserToMessage.run_fixed_rowsFor 1 1 1 1001 0 zeroRng rows st1 r1 hrun]
  rw [List.mem_range'_1]
  omega

/-- C1 (amended): in every successful UserToMessage run from a fresh
generator, the rows sharing a `(user_id, peer_id)` pair carry
`chat_local_id` values that form the gapless strictly increasing sequence
1, 2, …; when the ids are drawn randomly (any override missing) the
sequence never exceeds the 1000-per-pair cap, while with both ids fixed
the sequence is 1 … count with no cap (see the counterexample for
count > 1000). -/
theorem c1_chat_local_id_sequences :
    (∀ (uid0 pid0 : Option Nat) (fuel n i : Nat) (r : Rng)
      (rows : List UserToMessage.UMRow) (st1 : UserToMessage.GenState)
      (r1 : Rng),
      UserToMessage.isFixed uid0 pid0 = false →
      UserToMessage.run uid0 pid0 fuel n i UserToMessage.initState r =
        some (rows, st1, r1) →
      ∀ u p, UserToMessage.rowsFor u p rows =
          List.range' 1 (st1.counter (u, p)) ∧ st1.counter (u, p) ≤ 1000) ∧
    (∀ (u p fuel n i : Nat) (r : Rng) (rows : List UserToMessage.UMRow)
      (st1 : UserToMessage.GenState) (r1 : Rng),
      UserToMessage.run (some u) (some p) fuel n i UserToMessage.initState r =
        some (rows, st1, r1) →
      UserToMessage.rowsFor u p rows = List.range' 1 n) := by
  constructor
  · intro uid0 pid0 fuel n i r rows st1 r1 hnf hrun u p
    obtain ⟨hwf1, hrest⟩ := UserToMessage.run_spec uid0 pid0 fuel n i
      UserToMessage.initState r rows st1 r1 UserToMessage.WF_initState hrun
    obtain ⟨hmono, hrows⟩ := hrest u p
    have h0 : UserToMessage.initState.counter (u, p) = 0 := rfl
    rw [h0] at hrows
    simp only [Nat.zero_add, Nat.sub_zero] at hrows
    refine ⟨hrows, ?_⟩
    exact UserToMessage.run_cap uid0 pid0 hnf fuel n i UserToMessage.initState r
      rows st1 r1 UserToMessage.WF_initState (fun _ _ => Nat.zero_le 1000) hrun
      u p
  · exact fun u p fuel n i r rows st1 r1 h =>
      UserToMessage.run_fixed_rowsFor u p fuel n i r rows st1 r1 h

/-- Witness for C1: a concrete 2-row random-mode run (all-zero oracle, so
both rows land on the pair `(1000, 1000)`) satisfies the sequence and cap
properties. -/
theorem c1_chat_local_id_sequences_witness :
    ∃ rows st1 r1,
      UserToMessage.run none none 1 2 0 UserToMessage.initState zeroRng =
        some (rows, st1, r1) ∧
      UserToMessage.rowsFor 1000 1000 rows =
        List.range' 1 (st1.counter (1000, 1000)) ∧
      st1.counter (1000, 1000) ≤ 1000 := by
  cases hrun : UserToMessage.run none none 1 2 0 UserToMessage.initState
    zeroRng with
  | none =>
    have hs : (UserToMessage.run none none 1 2 0 UserToMessage.initState
      zeroRng).isSome = true := rfl
    rw [hrun] at hs
    exact absurd hs (by simp)
  | some x =>
    obtain ⟨rows, st1, r1⟩ := x
    exact ⟨rows, st1, r1, rfl,
      c1_chat_local_id_sequences.1 none none 1 2 0 zeroRng rows st1 r1 rfl hrun
        1000 1000⟩
